import Mathlib

set_option maxRecDepth 4000

/-! Shallow embedding of the deps.rs repository's core:
the git ls-remote pkt-line parser (incremental `Parser` from
`libs/git-ls-remote/src/parser.rs` and the batch `parse_body` /
`parse_lines` from `libs/git-ls-remote/src/lib.rs`), together with the
engine-level definitions from `src/engine/mod.rs`.

Bytes are modelled as `Nat` (values below 256), Rust `String`s as
`List Char`.  Functions whose Rust recursion is not structural are
embedded with an explicit fuel argument; the public wrapper passes a
fuel that provably dominates the recursion depth (the buffer length
plus one, as every self-call first drains at least one byte), so the
wrappers compute by kernel reduction. -/

namespace GitLsRemote

/-- Error enum of `libs/git-ls-remote/src/error.rs`, restricted to the
variants the parsing code can produce (`Uri`, `Hyper` and
`UnexpectedStatusCode` concern the HTTP layer only).  Payloads that do
not influence control flow (the `ParseIntError` kind, the `io::Error`
value) are dropped. -/
inductive Error
  | Utf8
  | FromUtf8
  | ParseInt (s : List Char)
  | InvalidLineLength
  | InvalidLine (line : List Char)
  | UnexpectedEndOfPayload
  | Io
deriving DecidableEq, Repr

/-- ObjectId newtype from `lib.rs`: an opaque string. -/
structure ObjectId where
  oid : List Char
deriving DecidableEq, Repr

/-- Ref record from `lib.rs`. -/
structure Ref where
  name : List Char
  oid : ObjectId
deriving DecidableEq, Repr

/-- UTF-8 validation and decoding as performed by Rust's
`str::from_utf8` / `String::from_utf8`: rejects stray continuation
bytes, overlong encodings, surrogate code points and values above
U+10FFFF.  (Rust enforces overlong/surrogate/range restrictions through
per-byte ranges; here they are enforced through equivalent checks on
the decoded code point.) -/
def utf8Decode : List Nat → Option (List Char)
  | [] => some []
  | b :: bs =>
    if b < 0x80 then
      (utf8Decode bs).map (fun cs => Char.ofNat b :: cs)
    else if b < 0xC2 then none
    else if b < 0xE0 then
      match bs with
      | b1 :: bs1 =>
        if 0x80 ≤ b1 ∧ b1 < 0xC0 then
          (utf8Decode bs1).map (fun cs => Char.ofNat ((b - 0xC0) * 0x40 + (b1 - 0x80)) :: cs)
        else none
      | [] => none
    else if b < 0xF0 then
      match bs with
      | b1 :: b2 :: bs2 =>
        if (0x80 ≤ b1 ∧ b1 < 0xC0) ∧ (0x80 ≤ b2 ∧ b2 < 0xC0) then
          let c := (b - 0xE0) * 0x1000 + (b1 - 0x80) * 0x40 + (b2 - 0x80)
          if c < 0x800 then none
          else if 0xD800 ≤ c ∧ c < 0xE000 then none
          else (utf8Decode bs2).map (fun cs => Char.ofNat c :: cs)
        else none
      | _ => none
    else if b < 0xF5 then
      match bs with
      | b1 :: b2 :: b3 :: bs3 =>
        if (0x80 ≤ b1 ∧ b1 < 0xC0) ∧ ((0x80 ≤ b2 ∧ b2 < 0xC0) ∧ (0x80 ≤ b3 ∧ b3 < 0xC0)) then
          let c := (b - 0xF0) * 0x40000 + (b1 - 0x80) * 0x1000 + (b2 - 0x80) * 0x40 + (b3 - 0x80)
          if c < 0x10000 then none
          else if 0x110000 ≤ c then none
          else (utf8Decode bs3).map (fun cs => Char.ofNat c :: cs)
        else none
      | _ => none
    else none

/-- Value of a single hexadecimal digit, upper or lower case, as
accepted by Rust's `from_str_radix(_, 16)`. -/
def hexDigit? (c : Char) : Option Nat :=
  if ('0' : Char) ≤ c ∧ c ≤ ('9' : Char) then some (c.toNat - ('0' : Char).toNat)
  else if ('a' : Char) ≤ c ∧ c ≤ ('f' : Char) then some (c.toNat - ('a' : Char).toNat + 10)
  else if ('A' : Char) ≤ c ∧ c ≤ ('F' : Char) then some (c.toNat - ('A' : Char).toNat + 10)
  else none

/-- Rust's `usize::from_str_radix(s, 16)` on a 64-bit target: an
optional leading plus sign, then at least one hex digit; overflow past
`2 ^ 64` fails.  `none` stands for every `ParseIntError` kind. -/
def from_str_radix_16 (s : List Char) : Option Nat :=
  let digits := match s with
    | ('+' : Char) :: rest => rest
    | other => other
  if digits.isEmpty then none
  else
    digits.foldl
      (fun acc c =>
        match acc, hexDigit? c with
        | some a, some d => if a * 16 + d < 2 ^ 64 then some (a * 16 + d) else none
        | _, _ => none)
      (some 0)

/-- The `pop` / conditional `push` pair of `parser.rs` lines 68-72 and
`lib.rs` lines 168-172: remove exactly one trailing newline when the
text ends in one. -/
def stripNewline (s : List Char) : List Char :=
  match s.getLast? with
  | some c => if c = '\n' then s.dropLast else s
  | none => s

/-- The fixed first protocol line. -/
def serviceLineChars : List Char := ("# service=git-upload-pack").data

inductive ParseState
  | AwaitingLength
  | AwaitingLineOfLength (len : Nat)
deriving DecidableEq, Repr

structure Parser where
  state : ParseState
  line_idx : Nat
deriving DecidableEq, Repr

inductive ParseResult
  | Error (e : GitLsRemote.Error)
  | Yield (r : Ref)
  | Incomplete
  | End
deriving DecidableEq, Repr

def Parser.new : Parser :=
  { state := ParseState.AwaitingLength, line_idx := 0 }

/-- Fueled version of `Parser::parse_line`.  The only self-call happens
in the `line_idx == 1` branch and continues with `line_idx = 2`, which
never recurses again, so fuel 2 always suffices and the fuel-0 default
is unreachable. -/
def Parser.parse_lineF : Nat → Parser → List Char → ParseResult × Parser
  | 0, p, line => (ParseResult.Error (Error.InvalidLine line), p)
  | fuel + 1, p, line =>
    if p.line_idx = 0 then
      if line ≠ serviceLineChars then
        (ParseResult.Error (Error.InvalidLine line), p)
      else
        (ParseResult.Incomplete,
         { p with line_idx := p.line_idx + 1, state := ParseState.AwaitingLength })
    else if p.line_idx = 1 then
      match line.findIdx? (fun c => c = '\x00') with
      | some nul_index =>
        Parser.parse_lineF fuel { p with line_idx := p.line_idx + 1 } (line.take nul_index)
      | none => (ParseResult.End, p)
    else
      match line.findIdx? (fun c => c = ' ') with
      | some space_index =>
        (ParseResult.Yield
          { name := line.drop (space_index + 1), oid := { oid := line.take space_index } },
         { p with line_idx := p.line_idx + 1, state := ParseState.AwaitingLength })
      | none => (ParseResult.Error (Error.InvalidLine line), p)

/-- `Parser::parse_line` of `parser.rs` lines 87-117. -/
def Parser.parse_line (p : Parser) (line : List Char) : ParseResult × Parser :=
  Parser.parse_lineF 2 p line

/-- Fueled version of `Parser::update`.  Every self-call happens after
draining 4 bytes from the buffer, so fuel `data.length + 1` always
suffices and the fuel-0 default is unreachable (see
`Parser.updateF_congr`). -/
def Parser.updateF : Nat → Parser → List Nat → ParseResult × Parser × List Nat
  | 0, p, data => (ParseResult.Incomplete, p, data)
  | fuel + 1, p, data =>
    match p.state with
    | ParseState.AwaitingLength =>
      if data.length < 4 then (ParseResult.Incomplete, p, data)
      else
        let len_bytes := data.take 4
        let rest := data.drop 4
        match utf8Decode len_bytes with
        | none => (ParseResult.Error Error.Utf8, p, rest)
        | some len_str =>
          match from_str_radix_16 len_str with
          | none => (ParseResult.Error (Error.ParseInt len_str), p, rest)
          | some len =>
            if len = 0 ∨ len = 4 then
              Parser.updateF fuel p rest
            else if len < 4 then
              (ParseResult.Error Error.InvalidLineLength, p, rest)
            else
              Parser.updateF fuel
                { p with state := ParseState.AwaitingLineOfLength (len - 4) } rest
    | ParseState.AwaitingLineOfLength len =>
      if data.length < len then (ParseResult.Incomplete, p, data)
      else
        let line_bytes := data.take len
        let rest := data.drop len
        match utf8Decode line_bytes with
        | none => (ParseResult.Error Error.FromUtf8, p, rest)
        | some cs =>
          let res := Parser.parse_line p (stripNewline cs)
          (res.1, res.2, rest)

/-- `Parser::update` of `parser.rs` lines 43-76.  The `&mut Vec<u8>`
buffer and the `&mut self` receiver become explicit: the result bundles
the parse result, the updated parser and the remaining buffer. -/
def Parser.update (p : Parser) (data : List Nat) : ParseResult × Parser × List Nat :=
  Parser.updateF (data.length + 1) p data

/-- `Parser::finalize` of `parser.rs` lines 78-85. -/
def Parser.finalize (p : Parser) : Except Error Unit :=
  match p.state with
  | ParseState.AwaitingLength =>
    if p.line_idx > 1 then Except.ok () else Except.error Error.UnexpectedEndOfPayload
  | ParseState.AwaitingLineOfLength _ => Except.error Error.UnexpectedEndOfPayload

/-- Outcome of the inner pump loop of `parse` (`parser.rs` lines
132-147): `more` corresponds to `Incomplete` breaking out to the next
read, `done` to `End` returning, `fail` to an error returning. -/
inductive PumpResult
  | more (refs : List Ref) (p : Parser) (data : List Nat)
  | done (refs : List Ref)
  | fail (e : GitLsRemote.Error)
deriving DecidableEq, Repr

/-- Fueled inner pump loop.  Each iteration that continues (a `Yield`)
strictly drains the buffer, so fuel `data.length + 1` suffices. -/
def pumpF : Nat → Parser → List Nat → List Ref → PumpResult
  | 0, _, _, refs => PumpResult.done refs
  | fuel + 1, p, data, refs =>
    match Parser.update p data with
    | (ParseResult.Error e, _, _) => PumpResult.fail e
    | (ParseResult.Yield r, p1, data1) => pumpF fuel p1 data1 (refs ++ [r])
    | (ParseResult.Incomplete, p1, data1) => PumpResult.more refs p1 data1
    | (ParseResult.End, _, _) => PumpResult.done refs

def pump (p : Parser) (data : List Nat) (refs : List Ref) : PumpResult :=
  pumpF (data.length + 1) p data refs

/-- Outer loop of `parse` (`parser.rs` lines 125-148), reading from an
abstract reader that returns the given chunks in order and then 0.
A zero-length read means end of stream to this code, so an empty chunk
triggers `finalize` exactly as exhaustion of the list does. -/
def parseLoop : List (List Nat) → Parser → List Nat → List Ref → Except Error (List Ref)
  | [], p, _, refs =>
    (match p.finalize with
     | Except.ok _ => Except.ok refs
     | Except.error e => Except.error e)
  | chunk :: restChunks, p, data, refs =>
    if chunk.length = 0 then
      (match p.finalize with
       | Except.ok _ => Except.ok refs
       | Except.error e => Except.error e)
    else
      match pump p (data ++ chunk) refs with
      | PumpResult.fail e => Except.error e
      | PumpResult.done refs1 => Except.ok refs1
      | PumpResult.more refs1 p1 data1 => parseLoop restChunks p1 data1 refs1

/-- `parse` of `parser.rs` lines 120-149, driving a fresh `Parser` over
the chunks a reader yields. -/
def parse (chunks : List (List Nat)) : Except Error (List Ref) :=
  parseLoop chunks Parser.new [] []

/-- Fueled unit loop of `parse_body` (`lib.rs` lines 148-175).  Each
iteration drains at least 4 bytes, so fuel `data.length + 1` suffices.
A `read_exact` of the 4 length bytes hitting end of data breaks the
loop; a short read of the body bytes is an I/O error. -/
def parse_body_unitsF : Nat → List Nat → Except Error (List (List Char))
  | 0, _ => Except.ok []
  | fuel + 1, data =>
    if data.length < 4 then Except.ok []
    else
      let len_bytes := data.take 4
      let rest := data.drop 4
      match utf8Decode len_bytes with
      | none => Except.error Error.Utf8
      | some len_str =>
        match from_str_radix_16 len_str with
        | none => Except.error (Error.ParseInt len_str)
        | some len =>
          if len = 0 ∨ len = 4 then parse_body_unitsF fuel rest
          else if len < 4 then Except.error Error.InvalidLineLength
          else if rest.length < len - 4 then Except.error Error.Io
          else
            match utf8Decode (rest.take (len - 4)) with
            | none => Except.error Error.FromUtf8
            | some cs =>
              (parse_body_unitsF fuel (rest.drop (len - 4))).map
                (fun lines => stripNewline cs :: lines)

/-- One iteration of the closure in `parse_lines` (`lib.rs` lines
204-212): split a ref line at its first space. -/
def parseRefLine (line : List Char) : Except Error Ref :=
  match line.findIdx? (fun c => c = ' ') with
  | some space_index =>
    Except.ok { name := line.drop (space_index + 1), oid := { oid := line.take space_index } }
  | none => Except.error (Error.InvalidLine line)

/-- `parse_lines` of `lib.rs` lines 180-213. -/
def parse_lines (lines : List (List Char)) : Except Error (List Ref) :=
  match lines with
  | [] => Except.error Error.UnexpectedEndOfPayload
  | first_line :: rest =>
    if first_line ≠ serviceLineChars then Except.error (Error.InvalidLine first_line)
    else
      match rest with
      | [] => Except.error Error.UnexpectedEndOfPayload
      | second_line :: more =>
        match second_line.findIdx? (fun c => c = '\x00') with
        | some nul_index => ((second_line.take nul_index) :: more).mapM parseRefLine
        | none => Except.ok []

/-- `parse_body` of `lib.rs` lines 146-177: decode every unit of the
fully buffered body, then interpret the logical lines. -/
def parse_body (data : List Nat) : Except Error (List Ref) :=
  parse_body_unitsF (data.length + 1) data >>= parse_lines

/-- Bytes of an ASCII string (every payload in this development is
ASCII, where the code point equals the byte). -/
def asciiBytes (s : String) : List Nat := s.data.map Char.toNat

end GitLsRemote


/-! Engine-level definitions from `src/engine/mod.rs`.  Types that live
in modules absent from the sources (`models/repo.rs`, `models/crates.rs`,
`utils/cache.rs`) are modelled from the spec at their interface. -/

/-- Placeholder for `Client<HttpsConnector<HttpConnector>>`. -/
inductive HttpClient
  | mk
deriving DecidableEq

/-- Placeholder for `slog::Logger`. -/
inductive Logger
  | mk
deriving DecidableEq

/-- Modelled from the spec: `std::time::Duration` restricted to whole
seconds, the only granularity `Engine::new` uses. -/
structure Duration where
  secs : Nat
deriving DecidableEq

def Duration.from_secs (secs : Nat) : Duration := { secs := secs }

/-- Modelled from the spec: `RepoPath` of the absent `models/repo.rs` is
`(site, qualifier, name)` identifying a repository, with structural
equality and hashing; `RepoPath::from_parts` builds one from the three
components. -/
structure RepoPath where
  site : String
  qual : String
  name : String
deriving DecidableEq

def RepoPath.from_parts (site : String) (qual : String) (name : String) : RepoPath :=
  { site := site, qual := qual, name := name }

/-- Modelled from the spec: a `Repository` as returned by the
popular-repository listing interactor, exposing the `path` field that
`get_popular_repos` filters on. -/
structure Repository where
  path : RepoPath
deriving DecidableEq

/-- Interactor `QueryCrate` (a newtype around the HTTP client). -/
structure QueryCrate where
  client : HttpClient
deriving DecidableEq

/-- Interactor `GetPopularRepos` (a newtype around the HTTP client). -/
structure GetPopularRepos where
  client : HttpClient
deriving DecidableEq

/-- Interactor `RetrieveFileAtPath` (a newtype around the HTTP client). -/
structure RetrieveFileAtPath where
  client : HttpClient
deriving DecidableEq

/-- `LsRemote` service (a newtype around the HTTP client). -/
structure LsRemote where
  client : HttpClient
deriving DecidableEq

/-- Modelled from the spec: the `utils/cache.rs` module is absent; per
the spec a `MemoizingCache` wraps one interactor and is configured with
an optional TTL and a maximum entry count, fixed at construction.  Only
that configuration is needed here. -/
structure Cache (S : Type) where
  service : S
  ttl : Option Duration
  capacity : Nat

/-- Modelled from the spec: `Cache::new(service, ttl, capacity)` stores
the wrapped interactor and its configuration. -/
def Cache.new {S : Type} (service : S) (ttl : Option Duration) (capacity : Nat) : Cache S :=
  { service := service, ttl := ttl, capacity := capacity }

/-- The `Engine` struct of `src/engine/mod.rs` lines 33-42. -/
structure Engine where
  client : HttpClient
  logger : Logger
  git_ls_remote : LsRemote
  query_crate : Cache QueryCrate
  get_popular_repos : Cache GetPopularRepos
  retrieve_file_at_path : Cache RetrieveFileAtPath

/-- `Engine::new` of `src/engine/mod.rs` lines 45-59. -/
def Engine.new (client : HttpClient) (logger : Logger) : Engine :=
  let git_ls_remote := LsRemote.mk client
  let query_crate := Cache.new (QueryCrate.mk client) (some (Duration.from_secs 300)) 500
  let get_popular_repos := Cache.new (GetPopularRepos.mk client) (some (Duration.from_secs 10)) 1
  let retrieve_file_at_path := Cache.new (RetrieveFileAtPath.mk client) none 500
  { client := client, logger := logger,
    git_ls_remote := git_ls_remote,
    query_crate := query_crate,
    get_popular_repos := get_popular_repos,
    retrieve_file_at_path := retrieve_file_at_path }

/-- `POPULAR_REPOS_BLACKLIST` of `src/engine/mod.rs` lines 156-166.  The
source collects these five paths into a `HashSet`; a list with the same
membership test models it. -/
def POPULAR_REPOS_BLACKLIST : List RepoPath :=
  [RepoPath.from_parts ("github") ("rust-lang") ("rust"),
   RepoPath.from_parts ("github") ("google") ("xi-editor"),
   RepoPath.from_parts ("github") ("lk-geimfari") ("awesomo"),
   RepoPath.from_parts ("github") ("redox-os") ("tfs"),
   RepoPath.from_parts ("github") ("carols10cents") ("rustlings")]

/-- `Engine::get_popular_repos` of `src/engine/mod.rs` lines 80-89,
applied to the repository list the cached interactor resolved to: keep
the repositories whose path is not blacklisted, in order. -/
def get_popular_repos (repos : List Repository) : List Repository :=
  repos.filter (fun repo => !(POPULAR_REPOS_BLACKLIST.contains repo.path))

/-- Modelled from the spec: `AnalyzedDependencies` of the absent
`models/crates.rs`, abstracted at the interface `engine/mod.rs` consumes
(the per-package reductions `count_outdated`, `count_total` and
`any_outdated` over its per-dependency classifications). -/
structure AnalyzedDependencies where
  count_outdated : Nat
  count_total : Nat
  any_outdated : Bool
deriving DecidableEq

/-- Modelled from the spec: `CrateName` of the absent `models/crates.rs`,
an identifier with structural equality. -/
structure CrateName where
  name : String
deriving DecidableEq

/-- `AnalyzeDependenciesOutcome` of `src/engine/mod.rs` lines 62-65. -/
structure AnalyzeDependenciesOutcome where
  crates : List (CrateName × AnalyzedDependencies)
  duration : Duration

/-- `AnalyzeDependenciesOutcome::any_outdated` (lines 68-70). -/
def AnalyzeDependenciesOutcome.any_outdated (o : AnalyzeDependenciesOutcome) : Bool :=
  o.crates.any (fun c => c.2.any_outdated)

/-- `AnalyzeDependenciesOutcome::outdated_ratio` (lines 72-76). -/
def AnalyzeDependenciesOutcome.outdated_ratio (o : AnalyzeDependenciesOutcome) : Nat × Nat :=
  o.crates.foldl
    (fun acc c => (acc.1 + c.2.count_outdated, acc.2 + c.2.count_total))
    (0, 0)

/-- Error type of `Engine::find_head_oid`: either an `ls-remote` error
carried over by `from_err`, or the `format_err!` failure when no ref is
named HEAD. -/
inductive EngineError
  | ls (e : GitLsRemote.Error)
  | headNotFound
deriving DecidableEq

/-- The name the HEAD ref carries. -/
def headChars : List Char := ("HEAD").data

/-- `Engine::find_head_oid` of `src/engine/mod.rs` lines 138-153
composed with `LsRemoteFuture::poll` of `lib.rs` lines 95-136: the
future concatenates the whole response body (`concat2`), parses it with
`parse_body`, and the engine then searches the complete ref list for
the ref named HEAD.  The argument is the full response body. -/
def find_head_oid (body : List Nat) : Except EngineError GitLsRemote.ObjectId :=
  match GitLsRemote.parse_body body with
  | Except.error e => Except.error (EngineError.ls e)
  | Except.ok refs =>
    match refs.find? (fun r => r.name = headChars) with
    | some r => Except.ok r.oid
    | none => Except.error EngineError.headNotFound

namespace GitLsRemote

/-- Concrete payload of a well-formed empty-list stream: the service
line unit, then a second line with no NUL byte. -/
def payloadEmptyList : List Nat :=
  asciiBytes ("001e# service=git-upload-pack\n0007xy\n")

/-- Concrete payload whose second line advertises the HEAD ref (then
capabilities after the NUL), with nothing after it. -/
def payloadHeadPrefix : List Nat :=
  asciiBytes ("001e# service=git-upload-pack\n0034990fa3a054f979b66989c79df21b8c71d8eb946f HEAD\x00x\n")

/-- The same payload followed by a malformed unit (length prefix 0003). -/
def payloadHeadBad : List Nat :=
  payloadHeadPrefix ++ asciiBytes ("0003")

/-- The object id advertised for HEAD in the concrete payloads. -/
def headOid : List Char := ("990fa3a054f979b66989c79df21b8c71d8eb946f").data

/-- Any two sufficient fuels give `Parser.updateF` the same value:
every self-call drains 4 bytes first, so any fuel above the buffer
length is never exhausted. -/
theorem Parser.updateF_congr : ∀ (f₁ f₂ : Nat) (p : Parser) (data : List Nat),
    data.length < f₁ → data.length < f₂ →
    Parser.updateF f₁ p data = Parser.updateF f₂ p data := by
  intro f₁
  induction f₁ with
  | zero => intro f₂ p data h₁ _; exact absurd h₁ (Nat.not_lt_zero _)
  | succ a ih =>
    intro f₂ p data h₁ h₂
    cases f₂ with
    | zero => exact absurd h₂ (Nat.not_lt_zero _)
    | succ b =>
      simp only [Parser.updateF]
      cases hst : p.state with
      | AwaitingLineOfLength n => rfl
      | AwaitingLength =>
        by_cases hd : data.length < 4
        · simp only [if_pos hd]
        · simp only [if_neg hd]
          split
          · rfl
          · split
            · rfl
            · split_ifs with hsep hlt
              · exact ih _ _ _ (by simp only [List.length_drop]; omega)
                  (by simp only [List.length_drop]; omega)
              · rfl
              · exact ih _ _ _ (by simp only [List.length_drop]; omega)
                  (by simp only [List.length_drop]; omega)

/-- In `AwaitingLength` with fewer than 4 buffered bytes, `update`
returns `Incomplete` and changes nothing. -/
theorem Parser.update_awaitingLength_short (p : Parser) (data : List Nat)
    (hst : p.state = ParseState.AwaitingLength) (h : data.length < 4) :
    p.update data = (ParseResult.Incomplete, p, data) := by
  simp only [Parser.update, Parser.updateF, hst, if_pos h]

/-- In `AwaitingLineOfLength n` with fewer than `n` buffered bytes,
`update` returns `Incomplete` and changes nothing. -/
theorem Parser.update_awaitingLine_short (p : Parser) (data : List Nat) (n : Nat)
    (hst : p.state = ParseState.AwaitingLineOfLength n) (h : data.length < n) :
    p.update data = (ParseResult.Incomplete, p, data) := by
  simp only [Parser.update, Parser.updateF, hst, if_pos h]

/-- A length prefix of value 0 or 4 is consumed as a separator: the
parser continues on the remaining buffer unchanged. -/
theorem Parser.update_separator (p : Parser) (data : List Nat) (cs : List Char) (v : Nat)
    (hst : p.state = ParseState.AwaitingLength) (h4 : ¬ data.length < 4)
    (hu : utf8Decode (data.take 4) = some cs)
    (hr : from_str_radix_16 cs = some v) (hv : v = 0 ∨ v = 4) :
    p.update data = p.update (data.drop 4) := by
  have h1 : p.update data = Parser.updateF data.length p (data.drop 4) := by
    simp only [Parser.update, Parser.updateF, hst, if_neg h4, hu, hr, if_pos hv]
  rw [h1, Parser.update]
  exact Parser.updateF_congr _ _ _ _
    (by simp only [List.length_drop]; omega) (by simp only [List.length_drop]; omega)

/-- A length prefix that is not parseable as hexadecimal fails with the
integer-format error, the 4 prefix bytes having been drained. -/
theorem Parser.update_parseInt_error (p : Parser) (data : List Nat) (cs : List Char)
    (hst : p.state = ParseState.AwaitingLength) (h4 : ¬ data.length < 4)
    (hu : utf8Decode (data.take 4) = some cs)
    (hr : from_str_radix_16 cs = none) :
    p.update data = (ParseResult.Error (Error.ParseInt cs), p, data.drop 4) := by
  simp only [Parser.update, Parser.updateF, hst, if_neg h4, hu, hr]

/-- A length prefix below 4 that is neither 0 nor 4 fails with
`InvalidLineLength`. -/
theorem Parser.update_invalid_length (p : Parser) (data : List Nat) (cs : List Char) (v : Nat)
    (hst : p.state = ParseState.AwaitingLength) (h4 : ¬ data.length < 4)
    (hu : utf8Decode (data.take 4) = some cs)
    (hr : from_str_radix_16 cs = some v) (hv : ¬ (v = 0 ∨ v = 4)) (hlt : v < 4) :
    p.update data = (ParseResult.Error Error.InvalidLineLength, p, data.drop 4) := by
  simp only [Parser.update, Parser.updateF, hst, if_neg h4, hu, hr, if_neg hv, if_pos hlt]

/-- A length prefix above 4 moves the parser to
`AwaitingLineOfLength (v - 4)` and continues on the drained buffer. -/
theorem Parser.update_enter_line (p : Parser) (data : List Nat) (cs : List Char) (v : Nat)
    (hst : p.state = ParseState.AwaitingLength) (h4 : ¬ data.length < 4)
    (hu : utf8Decode (data.take 4) = some cs)
    (hr : from_str_radix_16 cs = some v) (hv : ¬ (v = 0 ∨ v = 4)) (hlt : ¬ v < 4) :
    p.update data =
      Parser.update { p with state := ParseState.AwaitingLineOfLength (v - 4) } (data.drop 4) := by
  have h1 : p.update data =
      Parser.updateF data.length
        { p with state := ParseState.AwaitingLineOfLength (v - 4) } (data.drop 4) := by
    simp only [Parser.update, Parser.updateF, hst, if_neg h4, hu, hr, if_neg hv, if_neg hlt]
  rw [h1, Parser.update]
  exact Parser.updateF_congr _ _ _ _
    (by simp only [List.length_drop]; omega) (by simp only [List.length_drop]; omega)

/-- With the full body buffered, `AwaitingLineOfLength n` drains exactly
`n` bytes, decodes them as UTF-8, strips one trailing newline and hands
the text to `parse_line`. -/
theorem Parser.update_line_body (p : Parser) (data : List Nat) (n : Nat) (cs : List Char)
    (hst : p.state = ParseState.AwaitingLineOfLength n) (h : ¬ data.length < n)
    (hu : utf8Decode (data.take n) = some cs) :
    p.update data =
      ((p.parse_line (stripNewline cs)).1, (p.parse_line (stripNewline cs)).2, data.drop n) := by
  simp only [Parser.update, Parser.updateF, hst, if_neg h, hu]

end GitLsRemote

namespace GitLsRemote

/-- `parse_line` never yields a ref for the empty line: index 0 rejects
it, index 1 sees no NUL and ends, later indices see no space. -/
theorem Parser.parse_line_nil_ne_yield (p : Parser) (r : Ref) :
    (Parser.parse_line p []).1 ≠ ParseResult.Yield r := by
  have hsvc : ¬ (([] : List Char) = serviceLineChars) := by decide
  simp only [Parser.parse_line, Parser.parse_lineF]
  by_cases h0 : p.line_idx = 0
  · simp [h0, hsvc]
  · by_cases h1 : p.line_idx = 1
    · simp [h0, h1, List.findIdx?]
    · simp [h0, h1, List.findIdx?]

/-- `updateF` never grows the buffer. -/
theorem Parser.updateF_length_le : ∀ (f : Nat) (p : Parser) (data : List Nat),
    (Parser.updateF f p data).2.2.length ≤ data.length := by
  intro f
  induction f with
  | zero => intro p data; simp [Parser.updateF]
  | succ a ih =>
    intro p data
    simp only [Parser.updateF]
    cases hst : p.state with
    | AwaitingLength =>
      by_cases hd : data.length < 4
      · simp [hd]
      · simp only [if_neg hd]
        split
        · simp [List.length_drop]
        · split
          · simp [List.length_drop]
          · split_ifs with hsep hlt
            · exact le_trans (ih _ _) (by simp only [List.length_drop]; omega)
            · simp [List.length_drop]
            · exact le_trans (ih _ _) (by simp only [List.length_drop]; omega)
    | AwaitingLineOfLength n =>
      by_cases hd : data.length < n
      · simp [hd]
      · simp only [if_neg hd]
        split
        · simp [List.length_drop]
        · simp [List.length_drop]

/-- A `Yield` strictly drains the buffer: the yielded line's unit
carried at least one body byte (an empty line never yields), and its
4-byte length prefix was drained before it. -/
theorem Parser.updateF_yield_lt : ∀ (f : Nat) (p : Parser) (data : List Nat) (r : Ref),
    (Parser.updateF f p data).1 = ParseResult.Yield r →
    (Parser.updateF f p data).2.2.length < data.length := by
  intro f
  induction f with
  | zero => intro p data r h; simp [Parser.updateF] at h
  | succ a ih =>
    intro p data r
    obtain ⟨st, idx⟩ := p
    cases st with
    | AwaitingLength =>
      intro h
      simp only [Parser.updateF] at h ⊢
      by_cases hd : data.length < 4
      · rw [if_pos hd] at h; simp at h
      · rw [if_neg hd] at h ⊢
        split at h
        · simp at h
        · rename_i cs hu
          split at h
          · simp at h
          · rename_i v hr
            split_ifs at h with hsep hlt
            · rw [if_pos hsep]
              refine lt_of_lt_of_le (ih _ _ _ h) ?_
              simp only [List.length_drop]; omega
            · rw [if_neg hsep, if_neg hlt]
              refine lt_of_lt_of_le (ih _ _ _ h) ?_
              simp only [List.length_drop]; omega
    | AwaitingLineOfLength n =>
      intro h
      simp only [Parser.updateF] at h ⊢
      by_cases hd : data.length < n
      · rw [if_pos hd] at h; simp at h
      · rw [if_neg hd] at h ⊢
        split at h
        · simp at h
        · rename_i cs hu
          simp only [hu, List.length_drop]
          have hyield :
              (Parser.parse_line
                { state := ParseState.AwaitingLineOfLength n, line_idx := idx }
                (stripNewline cs)).1 = ParseResult.Yield r := h
          have hn : 1 ≤ n := by
            by_contra hn0
            have hn0 : n = 0 := by omega
            subst hn0
            have hnil : utf8Decode (data.take 0) = some ([] : List Char) := by
              rw [List.take_zero]
              rfl
            rw [hnil] at hu
            cases hu
            have hstrip : stripNewline ([] : List Char) = [] := by decide
            rw [hstrip] at hyield
            exact Parser.parse_line_nil_ne_yield _ r hyield
          omega

end GitLsRemote

namespace GitLsRemote

/-- C1: the claimed chunk-boundary independence fails on the code.  For
the well-formed empty-list payload, feeding the incremental `parse`
driver one single chunk equal to the whole payload fails with
`UnexpectedEndOfPayload` (the `Incomplete` returned after the service
line makes the driver wait for a read that only returns end-of-stream,
leaving the rest of the buffer unprocessed), while feeding it one byte
at a time succeeds with the empty ref list, as does the batch
`parse_body` on the whole payload. -/
theorem parse_chunk_boundary_bug :
    parse [payloadEmptyList] = Except.error Error.UnexpectedEndOfPayload ∧
    parse (payloadEmptyList.map (fun b => [b])) = Except.ok [] ∧
    parse_body payloadEmptyList = Except.ok [] := by
  refine ⟨?_, ?_, ?_⟩ <;> rfl

/-- C2 (counterexample): after a well-formed empty-list stream is fully
consumed (the second `update` call returns `End`, the successful
termination of an empty ref list), a subsequent `finalize()` call does
not succeed: it fails with `UnexpectedEndOfPayload`, because the `End`
branch of `parse_line` leaves `state = AwaitingLineOfLength` and
`line_idx = 1`. -/
theorem finalize_after_empty_list_counterexample :
    (Parser.update (Parser.update Parser.new payloadEmptyList).2.1
        (Parser.update Parser.new payloadEmptyList).2.2).1 = ParseResult.End ∧
    (Parser.update (Parser.update Parser.new payloadEmptyList).2.1
        (Parser.update Parser.new payloadEmptyList).2.2).2.1.finalize =
      Except.error Error.UnexpectedEndOfPayload := by
  refine ⟨?_, ?_⟩ <;> rfl

/-- C2 (amended): `finalize()` fails with `UnexpectedEndOfPayload`
unless the parser is at a unit boundary with more than one line
counted, which only happens after the first two protocol lines were
consumed through the non-empty-list path; contrary to the claim, after
a well-formed empty-list stream (which ends with `End` at
`line_idx = 1`) `finalize()` also fails. -/
theorem Parser.finalize_requires_two_lines (p : Parser) :
    (p.line_idx ≤ 1 → p.finalize = Except.error Error.UnexpectedEndOfPayload) ∧
    (p.finalize = Except.ok () ↔ p.state = ParseState.AwaitingLength ∧ 1 < p.line_idx) := by
  constructor
  · intro hle
    unfold Parser.finalize
    split
    · rw [if_neg (by omega)]
    · rfl
  · unfold Parser.finalize
    split
    · rename_i hst
      by_cases h : p.line_idx > 1
      · rw [if_pos h]; simp [hst, h]
      · rw [if_neg h]
        constructor
        · intro hh; exact absurd hh (by simp)
        · rintro ⟨_, h2⟩; exact absurd h2 h
    · rename_i hst
      constructor
      · intro hh; exact absurd hh (by simp)
      · rintro ⟨h1, _⟩
        rw [hst] at h1
        exact ParseState.noConfusion h1

/-- Witness for the amended C2 theorem at the parser state reached by
the empty-list stream. -/
theorem Parser.finalize_requires_two_lines_witness :
    (⟨ParseState.AwaitingLineOfLength 3, 1⟩ : Parser).line_idx ≤ 1 ∧
    (⟨ParseState.AwaitingLineOfLength 3, 1⟩ : Parser).finalize =
      Except.error Error.UnexpectedEndOfPayload :=
  ⟨by decide,
   (Parser.finalize_requires_two_lines ⟨ParseState.AwaitingLineOfLength 3, 1⟩).1 (by decide)⟩

/-- C5: whenever the buffer holds fewer bytes than the current state
requires (fewer than 4 in `AwaitingLength`, fewer than `n` in
`AwaitingLineOfLength n`), `update` returns `Incomplete` and leaves
both the parser (state and line index) and the buffer unchanged, so
repeating such calls never alters the eventual decoded output. -/
theorem Parser.update_incomplete_frame (p : Parser) (data : List Nat) :
    (p.state = ParseState.AwaitingLength → data.length < 4 →
      p.update data = (ParseResult.Incomplete, p, data)) ∧
    (∀ n, p.state = ParseState.AwaitingLineOfLength n → data.length < n →
      p.update data = (ParseResult.Incomplete, p, data)) :=
  ⟨fun hst h => Parser.update_awaitingLength_short p data hst h,
   fun n hst h => Parser.update_awaitingLine_short p data n hst h⟩

/-- Witness for C5 in both states, at concrete short buffers. -/
theorem Parser.update_incomplete_frame_witness :
    (Parser.new.state = ParseState.AwaitingLength ∧
      ([48, 48] : List Nat).length < 4 ∧
      Parser.new.update [48, 48] = (ParseResult.Incomplete, Parser.new, [48, 48])) ∧
    ((⟨ParseState.AwaitingLineOfLength 5, 2⟩ : Parser).state =
        ParseState.AwaitingLineOfLength 5 ∧
      ([48] : List Nat).length < 5 ∧
      (⟨ParseState.AwaitingLineOfLength 5, 2⟩ : Parser).update [48] =
        (ParseResult.Incomplete, ⟨ParseState.AwaitingLineOfLength 5, 2⟩, [48])) :=
  ⟨⟨rfl, by decide,
    (Parser.update_incomplete_frame Parser.new [48, 48]).1 rfl (by decide)⟩,
   ⟨rfl, by decide,
    (Parser.update_incomplete_frame ⟨ParseState.AwaitingLineOfLength 5, 2⟩ [48]).2 5 rfl
      (by decide)⟩⟩

/-- C10: `update` terminates on every finite buffer; the embedding is a
total function whose recursion is well-founded on the buffer length
(each self-call first drains the 4 prefix bytes), and correspondingly
the returned buffer never grows, and strictly shrinks whenever a ref is
yielded. -/
theorem Parser.update_consumes (p : Parser) (data : List Nat) :
    (p.update data).2.2.length ≤ data.length ∧
    (∀ r, (p.update data).1 = ParseResult.Yield r →
      (p.update data).2.2.length < data.length) :=
  ⟨Parser.updateF_length_le _ p data,
   fun r h => Parser.updateF_yield_lt _ p data r h⟩

/-- Witness for C10 at a concrete yielding input. -/
theorem Parser.update_consumes_witness :
    ((⟨ParseState.AwaitingLength, 2⟩ : Parser).update (asciiBytes ("0008a b\n"))).1 =
      ParseResult.Yield { name := ("b").data, oid := { oid := ("a").data } } ∧
    ((⟨ParseState.AwaitingLength, 2⟩ : Parser).update (asciiBytes ("0008a b\n"))).2.2.length <
      (asciiBytes ("0008a b\n")).length :=
  ⟨by decide,
   (Parser.update_consumes ⟨ParseState.AwaitingLength, 2⟩ (asciiBytes ("0008a b\n"))).2
     { name := ("b").data, oid := { oid := ("a").data } } (by decide)⟩

end GitLsRemote

namespace GitLsRemote

/-- C3: for a unit whose 4-byte prefix is buffered, the prefix is
parsed as hexadecimal; value 0 or 4 is a separator consumed with no
logical line, decoding continuing on the drained buffer; any other
value below 4 fails with `InvalidLineLength`; a non-hexadecimal prefix
fails with the integer-format error; otherwise exactly `length - 4`
body bytes are decoded as UTF-8 text with one trailing newline stripped
before the line is interpreted. -/
theorem Parser.update_unit_decoding (p : Parser) (data : List Nat) (cs : List Char)
    (hst : p.state = ParseState.AwaitingLength)
    (h4 : ¬ data.length < 4)
    (hu : utf8Decode (data.take 4) = some cs) :
    (from_str_radix_16 cs = none →
      p.update data = (ParseResult.Error (Error.ParseInt cs), p, data.drop 4)) ∧
    (∀ v, from_str_radix_16 cs = some v → (v = 0 ∨ v = 4) →
      p.update data = p.update (data.drop 4)) ∧
    (∀ v, from_str_radix_16 cs = some v → ¬ (v = 0 ∨ v = 4) → v < 4 →
      p.update data = (ParseResult.Error Error.InvalidLineLength, p, data.drop 4)) ∧
    (∀ v s, from_str_radix_16 cs = some v → ¬ (v = 0 ∨ v = 4) → ¬ v < 4 →
      ¬ (data.drop 4).length < v - 4 →
      utf8Decode ((data.drop 4).take (v - 4)) = some s →
      p.update data =
        ((Parser.parse_line { p with state := ParseState.AwaitingLineOfLength (v - 4) }
            (stripNewline s)).1,
         (Parser.parse_line { p with state := ParseState.AwaitingLineOfLength (v - 4) }
            (stripNewline s)).2,
         (data.drop 4).drop (v - 4))) := by
  refine ⟨?_, ?_, ?_, ?_⟩
  · intro hr
    exact Parser.update_parseInt_error p data cs hst h4 hu hr
  · intro v hr hv
    exact Parser.update_separator p data cs v hst h4 hu hr hv
  · intro v hr hv hlt
    exact Parser.update_invalid_length p data cs v hst h4 hu hr hv hlt
  · intro v s hr hv hlt hlen hus
    rw [Parser.update_enter_line p data cs v hst h4 hu hr hv hlt]
    exact Parser.update_line_body _ _ _ _ rfl hlen hus

/-- Witness for C3 at a concrete ref-line unit of declared length 8. -/
theorem Parser.update_unit_decoding_witness :
    ((⟨ParseState.AwaitingLength, 2⟩ : Parser).state = ParseState.AwaitingLength) ∧
    (¬ (asciiBytes ("0008a b\n")).length < 4) ∧
    (utf8Decode ((asciiBytes ("0008a b\n")).take 4) = some (("0008").data)) ∧
    (from_str_radix_16 (("0008").data) = some 8) ∧
    (⟨ParseState.AwaitingLength, 2⟩ : Parser).update (asciiBytes ("0008a b\n")) =
      ((Parser.parse_line ⟨ParseState.AwaitingLineOfLength 4, 2⟩
          (stripNewline (("a b\n").data))).1,
       (Parser.parse_line ⟨ParseState.AwaitingLineOfLength 4, 2⟩
          (stripNewline (("a b\n").data))).2,
       ((asciiBytes ("0008a b\n")).drop 4).drop 4) :=
  ⟨rfl, by decide, by decide, by decide,
   (Parser.update_unit_decoding ⟨ParseState.AwaitingLength, 2⟩ (asciiBytes ("0008a b\n"))
      (("0008").data) rfl (by decide) (by decide)).2.2.2 8 (("a b\n").data)
      (by decide) (by decide) (by decide) (by decide) (by decide)⟩

/-- C4: on every logical line after the first two, a line containing a
space yields a ref whose object id is the text before the first space
and whose name is the text after it, and a line containing no space is
rejected with the malformed-line error `InvalidLine`. -/
theorem Parser.parse_line_ref_grammar (p : Parser) (line : List Char)
    (h2 : 2 ≤ p.line_idx) :
    (∀ i, line.findIdx? (fun c => c = ' ') = some i →
      p.parse_line line =
        (ParseResult.Yield { name := line.drop (i + 1), oid := { oid := line.take i } },
         { p with line_idx := p.line_idx + 1, state := ParseState.AwaitingLength })) ∧
    (line.findIdx? (fun c => c = ' ') = none →
      p.parse_line line = (ParseResult.Error (Error.InvalidLine line), p)) := by
  have h0 : ¬ p.line_idx = 0 := by omega
  have h1 : ¬ p.line_idx = 1 := by omega
  constructor
  · intro i hi
    simp only [Parser.parse_line, Parser.parse_lineF, if_neg h0, if_neg h1, hi]
  · intro hn
    simp only [Parser.parse_line, Parser.parse_lineF, if_neg h0, if_neg h1, hn]

/-- Witness for C4 on both branches: a concrete line with a space and a
concrete line without one. -/
theorem Parser.parse_line_ref_grammar_witness :
    (2 ≤ (⟨ParseState.AwaitingLineOfLength 4, 2⟩ : Parser).line_idx ∧
      (("ab cd").data).findIdx? (fun c => c = ' ') = some 2 ∧
      (⟨ParseState.AwaitingLineOfLength 4, 2⟩ : Parser).parse_line (("ab cd").data) =
        (ParseResult.Yield
          { name := (("ab cd").data).drop 3, oid := { oid := (("ab cd").data).take 2 } },
         ⟨ParseState.AwaitingLength, 3⟩)) ∧
    (2 ≤ (⟨ParseState.AwaitingLineOfLength 4, 5⟩ : Parser).line_idx ∧
      (("abcd").data).findIdx? (fun c => c = ' ') = none ∧
      (⟨ParseState.AwaitingLineOfLength 4, 5⟩ : Parser).parse_line (("abcd").data) =
        (ParseResult.Error (Error.InvalidLine (("abcd").data)),
         ⟨ParseState.AwaitingLineOfLength 4, 5⟩)) :=
  ⟨⟨by decide, by decide,
    (Parser.parse_line_ref_grammar ⟨ParseState.AwaitingLineOfLength 4, 2⟩ (("ab cd").data)
      (by decide)).1 2 (by decide)⟩,
   ⟨by decide, by decide,
    (Parser.parse_line_ref_grammar ⟨ParseState.AwaitingLineOfLength 4, 5⟩ (("abcd").data)
      (by decide)).2 (by decide)⟩⟩

end GitLsRemote

/-- Folding the outdated/total counters from any starting pair adds the
two component sums. -/
theorem foldl_ratio_eq (l : List (CrateName × AnalyzedDependencies)) :
    ∀ (a b : Nat),
      l.foldl (fun acc c => (acc.1 + c.2.count_outdated, acc.2 + c.2.count_total)) (a, b) =
        (a + (l.map (fun c => c.2.count_outdated)).sum,
         b + (l.map (fun c => c.2.count_total)).sum) := by
  induction l with
  | nil => intro a b; simp
  | cons x xs ih =>
    intro a b
    simp only [List.foldl_cons, List.map_cons, List.sum_cons, ih]
    rw [Nat.add_assoc, Nat.add_assoc]
    
/-- C7: `outdated_ratio()` equals the pair of component-wise sums over
all crates of the per-crate outdated and total dependency counts, and
`any_outdated()` is true exactly when some crate's analyzed
dependencies report an outdated dependency — both pure reductions over
the per-crate classifications. -/
theorem outcome_reductions (o : AnalyzeDependenciesOutcome) :
    o.outdated_ratio =
      ((o.crates.map (fun c => c.2.count_outdated)).sum,
       (o.crates.map (fun c => c.2.count_total)).sum) ∧
    (o.any_outdated = true ↔ ∃ c ∈ o.crates, c.2.any_outdated = true) := by
  constructor
  · rw [AnalyzeDependenciesOutcome.outdated_ratio, foldl_ratio_eq]
    simp
  · rw [AnalyzeDependenciesOutcome.any_outdated]
    simp

/-- C6 (counterexample): `resolveHead` does not stop reading once the
HEAD ref is produced.  On a body whose second line already advertises
HEAD but which is followed by a malformed unit, `find_head_oid` fails
with the decode error of the trailing unit, although on the clean
prefix (everything up to and including the HEAD line) it succeeds with
HEAD's object id — the whole buffered body determines the outcome. -/
theorem find_head_oid_reads_whole_body_counterexample :
    find_head_oid GitLsRemote.payloadHeadBad =
      Except.error (EngineError.ls GitLsRemote.Error.InvalidLineLength) ∧
    find_head_oid GitLsRemote.payloadHeadPrefix =
      Except.ok { oid := GitLsRemote.headOid } := by
  refine ⟨?_, ?_⟩ <;> rfl

/-- C6 (amended): `listRefs` buffers the entire response body
(`concat2`) and parses it in one batch, and `resolveHead` searches the
complete parsed ref list for the ref named HEAD afterwards; nothing is
produced incrementally and no short-circuit happens, so any parse
failure anywhere in the body fails `resolveHead`. -/
theorem find_head_oid_whole_body (body : List Nat) :
    (∀ e, GitLsRemote.parse_body body = Except.error e →
      find_head_oid body = Except.error (EngineError.ls e)) ∧
    (∀ refs, GitLsRemote.parse_body body = Except.ok refs →
      find_head_oid body =
        (match refs.find? (fun r => r.name = headChars) with
         | some r => Except.ok r.oid
         | none => Except.error EngineError.headNotFound)) := by
  constructor
  · intro e h
    simp only [find_head_oid, h]
  · intro refs h
    simp only [find_head_oid, h]

/-- Witness for the amended C6 theorem: on the clean HEAD payload the
batch parse yields exactly the HEAD ref and `find_head_oid` returns
its object id. -/
theorem find_head_oid_whole_body_witness :
    GitLsRemote.parse_body GitLsRemote.payloadHeadPrefix =
      Except.ok [{ name := headChars, oid := { oid := GitLsRemote.headOid } }] ∧
    find_head_oid GitLsRemote.payloadHeadPrefix =
      Except.ok { oid := GitLsRemote.headOid } :=
  ⟨by rfl,
   (find_head_oid_whole_body GitLsRemote.payloadHeadPrefix).2
     [{ name := headChars, oid := { oid := GitLsRemote.headOid } }] (by rfl)⟩

/-- C8: `Engine::new` builds one cache per external interactor with the
configured TTL and capacity: registry queries 300 seconds and 500
entries, the popular-repository listing 10 seconds and 1 entry, file
retrieval no expiry and 500 entries. -/
theorem Engine.new_cache_config (client : HttpClient) (logger : Logger) :
    (Engine.new client logger).query_crate.ttl = some (Duration.from_secs 300) ∧
    (Engine.new client logger).query_crate.capacity = 500 ∧
    (Engine.new client logger).get_popular_repos.ttl = some (Duration.from_secs 10) ∧
    (Engine.new client logger).get_popular_repos.capacity = 1 ∧
    (Engine.new client logger).retrieve_file_at_path.ttl = none ∧
    (Engine.new client logger).retrieve_file_at_path.capacity = 500 :=
  ⟨rfl, rfl, rfl, rfl, rfl, rfl⟩

/-- C9: `get_popular_repos` returns exactly the repositories whose path
is not in the fixed five-element blacklist, preserving their original
order (the result is a sublist of the input). -/
theorem get_popular_repos_filters_blacklist (repos : List Repository) :
    (get_popular_repos repos).Sublist repos ∧
    (∀ repo, repo ∈ get_popular_repos repos ↔
      repo ∈ repos ∧
        ¬ repo.path ∈
          [RepoPath.from_parts ("github") ("rust-lang") ("rust"),
           RepoPath.from_parts ("github") ("google") ("xi-editor"),
           RepoPath.from_parts ("github") ("lk-geimfari") ("awesomo"),
           RepoPath.from_parts ("github") ("redox-os") ("tfs"),
           RepoPath.from_parts ("github") ("carols10cents") ("rustlings")]) := by
  constructor
  · exact List.filter_sublist _
  · intro repo
    rw [show (get_popular_repos repos) =
        repos.filter (fun repo => !(POPULAR_REPOS_BLACKLIST.contains repo.path)) from rfl]
    rw [List.mem_filter]
    simp [POPULAR_REPOS_BLACKLIST, List.contains_eq_any_beq, List.any_eq_true]
